import Mathlib

/-!
Verification of the opensearch-rust-sdk extension runtime core, shallowly
embedded from the Rust sources: the transport header codec (src/transport.rs),
the extension lifecycle state machine (src/extension/lifecycle.rs), the error
enumeration (src/extension/error.rs), the resilience layer
(src/extension/resilience.rs), the runner's registration step
(src/extension/runner.rs) and the dependency resolver
(src/extension/dependency.rs).

Machine integers are embedded as `Nat` with explicit bounds or `% 2 ^ w`
where overflow matters; byte streams are `List Nat`; fallible code returns
`Except`.
-/

/-! ## Transport header codec (src/transport.rs) -/

/-- `const MARKER_BYTES: &[u8; 2] = b"ES"` — ASCII 'E' = 69, 'S' = 83. -/
def MARKER_BYTES : List Nat := [69, 83]

def REQUEST_ID_SIZE : Nat := 8
def STATUS_SIZE : Nat := 1
def VERSION_ID_SIZE : Nat := 4

/-- Big-endian encoding of `n` into `w` bytes, as `u32::to_be_bytes` /
`u64::to_be_bytes` produce (truncating to the low `8 * w` bits). -/
def toBytesBE : Nat → Nat → List Nat
  | 0, _ => []
  | w + 1, n => toBytesBE w (n / 256) ++ [n % 256]

/-- Big-endian decoding, as `u32::from_be_bytes` / `u64::from_be_bytes`. -/
def fromBytesBE (l : List Nat) : Nat :=
  l.foldl (fun acc b => acc * 256 + b) 0

/-- `std::io::ErrorKind` — only the `InvalidData` kind is used by the codec. -/
inductive IoErrorKind
  | InvalidData
deriving DecidableEq

/-- `std::io::Error` as built by `Error::new(kind, msg)`. -/
structure IoError where
  kind : IoErrorKind
  message : String
deriving DecidableEq

/-- `stream.read_exact(&mut buf)` for a `buf` of length `k`, with the
`map_err` message applied at each call site in `from_stream`: consumes the
first `k` bytes of the stream or fails with an `InvalidData` error. -/
def read_exact (k : Nat) (msg : String) (s : List Nat) :
    Except IoError (List Nat × List Nat) :=
  if k ≤ s.length then .ok (s.take k, s.drop k)
  else .error ⟨.InvalidData, msg⟩

/-- `TransportTcpHeader` (fields as unbounded `Nat`; the intended ranges
`u32`/`u64`/`u8` appear as hypotheses of the round-trip theorem). -/
structure TransportTcpHeader where
  message_length : Nat
  request_id : Nat
  status : Nat
  version : Nat
  variable_header_size : Nat
deriving DecidableEq

/-- `TransportTcpHeader::new`: `message_length` is the sum of the content
size, the 13 fixed bytes (8 request_id + 1 status + 4 version) and the
variable header size, computed in `usize` and converted with
`try_into().expect(..)`.  The `expect` aborts when the sum does not fit in
`u32`; that abort is modelled as `none`. -/
def TransportTcpHeader.new (request_id status version content_size
    variable_header_size : Nat) : Option TransportTcpHeader :=
  let message_length := content_size + REQUEST_ID_SIZE + STATUS_SIZE
    + VERSION_ID_SIZE + variable_header_size
  if message_length < 2 ^ 32 then
    some { message_length, request_id, status, version, variable_header_size }
  else
    none

/-- `TransportTcpHeader::from_stream`: reads the 2-byte marker, rejects a
mismatch, then reads size, request_id, status, version and
variable_header_size (big-endian fixed widths), mirroring the `?`-chain of
the source. -/
def TransportTcpHeader.from_stream (s : List Nat) :
    Except IoError TransportTcpHeader :=
  match read_exact 2 "Unable to parse prefix" s with
  | .error e => .error e
  | .ok (marker, s) =>
    if marker ≠ MARKER_BYTES then
      .error ⟨.InvalidData, "Invalid header prefix"⟩
    else
      match read_exact 4 "Unable to parse size" s with
      | .error e => .error e
      | .ok (size, s) =>
        match read_exact 8 "Cannot parse request_id" s with
        | .error e => .error e
        | .ok (request_id, s) =>
          match read_exact 1 "Unable to parse status" s with
          | .error e => .error e
          | .ok (status, s) =>
            match read_exact 4 "Unable to parse version" s with
            | .error e => .error e
            | .ok (version, s) =>
              match read_exact 4 "Unable to parse variable_header_size" s with
              | .error e => .error e
              | .ok (variable_header_size, _) =>
                .ok { message_length := fromBytesBE size,
                      request_id := fromBytesBE request_id,
                      status := status.headD 0,
                      version := fromBytesBE version,
                      variable_header_size := fromBytesBE variable_header_size }

/-- `TransportTcpHeader::write_response`: the byte stream produced on the
socket — marker, then message_length, request_id, status, version,
variable_header_size (big-endian fixed widths), then the content. -/
def TransportTcpHeader.write_response (h : TransportTcpHeader)
    (content : List Nat) : List Nat :=
  MARKER_BYTES
    ++ toBytesBE 4 h.message_length
    ++ toBytesBE 8 h.request_id
    ++ [h.status]
    ++ toBytesBE 4 h.version
    ++ toBytesBE 4 h.variable_header_size
    ++ content

/-! ## Extension errors (src/extension/error.rs) -/

/-- `ExtensionError` — the eleven error variants, each carrying its message
(the `IoError(#[from] std::io::Error)` payload is embedded as its rendered
message string). -/
inductive ExtensionError
  | InitializationError (msg : String)
  | TransportError (msg : String)
  | ConfigurationError (msg : String)
  | RegistrationError (msg : String)
  | DependencyError (msg : String)
  | ShutdownError (msg : String)
  | IoError (msg : String)
  | SerializationError (msg : String)
  | ProtocolError (msg : String)
  | TimeoutError (msg : String)
  | Unknown (msg : String)
deriving DecidableEq

def ExtensionError.initialization (msg : String) : ExtensionError :=
  .InitializationError msg

def ExtensionError.unknown (msg : String) : ExtensionError :=
  .Unknown msg

/-- The error kind (the enum discriminant), abstracting away the message. -/
inductive ExtensionErrorKind
  | Initialization | Transport | Configuration | Registration | Dependency
  | Shutdown | Io | Serialization | Protocol | Timeout | Unknown
deriving DecidableEq

def ExtensionError.kind : ExtensionError → ExtensionErrorKind
  | .InitializationError _ => .Initialization
  | .TransportError _ => .Transport
  | .ConfigurationError _ => .Configuration
  | .RegistrationError _ => .Registration
  | .DependencyError _ => .Dependency
  | .ShutdownError _ => .Shutdown
  | .IoError _ => .Io
  | .SerializationError _ => .Serialization
  | .ProtocolError _ => .Protocol
  | .TimeoutError _ => .Timeout
  | .Unknown _ => .Unknown

/-- The `Display` rendering produced by the `#[error(..)]` attributes. -/
def ExtensionError.display : ExtensionError → String
  | .InitializationError m => "Initialization failed: " ++ m
  | .TransportError m => "Transport error: " ++ m
  | .ConfigurationError m => "Configuration error: " ++ m
  | .RegistrationError m => "Registration failed: " ++ m
  | .DependencyError m => "Dependency error: " ++ m
  | .ShutdownError m => "Shutdown error: " ++ m
  | .IoError m => "IO error: " ++ m
  | .SerializationError m => "Serialization error: " ++ m
  | .ProtocolError m => "Protocol error: " ++ m
  | .TimeoutError m => "Timeout error: " ++ m
  | .Unknown m => "Unknown error: " ++ m

/-! ## Lifecycle state machine (src/extension/lifecycle.rs) -/

inductive ExtensionState
  | Created | Initializing | Initialized | Running | Stopping | Stopped | Failed
deriving DecidableEq

/-- `ExtensionState::can_transition_to`, clause for clause — note the
wildcard arm `(_, Failed) => true` that precedes the final `_ => false`. -/
def ExtensionState.can_transition_to (s next : ExtensionState) : Bool :=
  match s, next with
  | .Created, .Initializing => true
  | .Initializing, .Initialized => true
  | .Initializing, .Failed => true
  | .Initialized, .Running => true
  | .Initialized, .Stopping => true
  | .Running, .Stopping => true
  | .Stopping, .Stopped => true
  | .Stopping, .Failed => true
  | _, .Failed => true
  | _, _ => false

/-- `ExtensionState::is_terminal`. -/
def ExtensionState.is_terminal (s : ExtensionState) : Bool :=
  match s with
  | .Stopped | .Failed => true
  | _ => false

/-- The `{:?}` (Debug) rendering of a state, used in the transition error. -/
def stateName : ExtensionState → String
  | .Created => "Created"
  | .Initializing => "Initializing"
  | .Initialized => "Initialized"
  | .Running => "Running"
  | .Stopping => "Stopping"
  | .Stopped => "Stopped"
  | .Failed => "Failed"

/-- `LifecycleManager::transition_to`: given the current state and the
requested state, returns the state held after the call together with the
call's result — on a valid transition the state is committed and the call
succeeds, otherwise the state is left unchanged and an
`ExtensionError::initialization` error is returned. -/
def LifecycleManager.transition_to (current new_state : ExtensionState) :
    ExtensionState × Except ExtensionError Unit :=
  if current.can_transition_to new_state then
    (new_state, .ok ())
  else
    (current, .error (ExtensionError.initialization
      ("Invalid state transition from " ++ stateName current
        ++ " to " ++ stateName new_state)))

/-- The transition table exactly as the spec states it: the five listed
source → target families, plus `Failed` as a target from any NON-terminal
state ("universal escape hatch"), everything else rejected. -/
def specTransitionTable (s t : ExtensionState) : Bool :=
  match s, t with
  | .Created, .Initializing => true
  | .Initializing, .Initialized => true
  | .Initializing, .Failed => true
  | .Initialized, .Running => true
  | .Initialized, .Stopping => true
  | .Running, .Stopping => true
  | .Stopping, .Stopped => true
  | .Stopping, .Failed => true
  | .Created, .Failed => true
  | .Initialized, .Failed => true
  | .Running, .Failed => true
  | _, _ => false

/-- The amended transition table: as `specTransitionTable`, except that
`Failed` is accepted as a target from EVERY state, the terminal states
`Stopped` and `Failed` included. -/
def specTransitionTableAmended (s t : ExtensionState) : Bool :=
  specTransitionTable s t || t == .Failed

/-! ## Runner registration step (src/extension/runner.rs) -/

/-- `RegistrationResponse` (src/extension/registration.rs). -/
structure RegistrationResponse where
  success : Bool
  extension_id : Option String
  message : Option String
  cluster_name : Option String
  cluster_uuid : Option String

/-- `ExtensionRunner::register_with_opensearch`, as a function of the outcome
of the network registration exchange (`protocol.register_with_opensearch`).
Each arm of the source's `match` only logs (`info!` on success, `warn!` on a
`success = false` response or on an error) and the function returns `Ok(())`
unconditionally. -/
def ExtensionRunner.register_with_opensearch
    (outcome : Except ExtensionError RegistrationResponse) :
    Except ExtensionError Unit :=
  match outcome with
  | .ok response => if response.success then .ok () else .ok ()
  | .error _ => .ok ()

/-- One lifecycle step of `ExtensionRunner::run`: a transition that
propagates the transition error (`?`) and otherwise carries the new state. -/
def transitionStep (s t : ExtensionState) :
    Except ExtensionError ExtensionState :=
  match LifecycleManager.transition_to s t with
  | (s', .ok ()) => .ok s'
  | (_, .error e) => .error e

/-- The startup sequence of `ExtensionRunner::run` up to the `Running`
transition, as a function of the outcome of `extension.initialize` and of the
registration exchange: Created → Initializing, `initialize(context)?`,
→ Initialized, `register_with_opensearch()?`, → Running. -/
def ExtensionRunner.runStartup (initResult : Except ExtensionError Unit)
    (regOutcome : Except ExtensionError RegistrationResponse) :
    Except ExtensionError ExtensionState := do
  let st := ExtensionState.Created
  let st ← transitionStep st .Initializing
  let _ ← initResult
  let st ← transitionStep st .Initialized
  let _ ← ExtensionRunner.register_with_opensearch regOutcome
  let st ← transitionStep st .Running
  pure st

/-! ## Resilience layer (src/extension/resilience.rs) -/

/-- `RetryPolicy`.  The `initial_delay`/`max_delay` durations are carried in
milliseconds; `exponential_base` (an `f32`) and the backoff/jitter sleep they
parameterize affect only the timing of the retries, never the result or the
number of invocations, and are not modelled (floating point). -/
structure RetryPolicy where
  max_attempts : Nat
  initial_delay : Nat
  max_delay : Nat
  jitter : Bool

/-- The loop of `retry_with_policy`.  `attempt` is the 1-based number of the
invocation about to be made and `remaining = max_attempts - attempt` counts
the further attempts allowed after it (the source's `attempt >=
policy.max_attempts` test is exactly `remaining = 0`).  The operation is a
function of the attempt number; the second component of the result counts
the invocations performed. -/
def retryLoop {T : Type} (policy : RetryPolicy)
    (op : Nat → Except ExtensionError T) :
    Nat → Nat → Except ExtensionError T × Nat
  | remaining, attempt =>
    match op attempt with
    | .ok v => (.ok v, 1)
    | .error e =>
      match remaining with
      | 0 =>
        (.error (ExtensionError.unknown
          ("Operation failed after " ++ toString policy.max_attempts
            ++ " attempts: " ++ e.display)), 1)
      | r + 1 =>
        let res := retryLoop policy op r (attempt + 1)
        (res.1, res.2 + 1)

/-- `retry_with_policy`: the first attempt is number 1, and with
`max_attempts = n` at most `n - 1` further attempts follow it (for `n = 0`
the first error already satisfies `attempt >= max_attempts`). -/
def retry_with_policy {T : Type} (policy : RetryPolicy)
    (op : Nat → Except ExtensionError T) : Except ExtensionError T × Nat :=
  retryLoop policy op (policy.max_attempts - 1) 1

/-- `CircuitState`. -/
inductive CircuitState
  | Closed | Open | HalfOpen
deriving DecidableEq

/-- The breaker's configuration (`CircuitBreaker::new` arguments); `timeout`
is in the same abstract time unit as the `now` argument of `call`. -/
structure CircuitBreaker where
  failure_threshold : Nat
  success_threshold : Nat
  timeout : Nat

/-- `CircuitBreakerState` — `Instant`s are abstract time points (`Nat`). -/
structure CircuitBreakerState where
  state : CircuitState
  failure_count : Nat
  success_count : Nat
  last_failure_time : Option Nat
deriving DecidableEq

/-- The state installed by `CircuitBreaker::new`. -/
def initialCircuitBreakerState : CircuitBreakerState :=
  { state := .Closed, failure_count := 0, success_count := 0,
    last_failure_time := none }

/-- The first `match` of `CircuitBreaker::call`: in `Open`, either move to
`HalfOpen` with both counters reset (timeout elapsed since the last recorded
failure, `last_failure.elapsed() >= self.timeout` being `now - last >=
timeout`) or reject with the "circuit open" error; any other state passes
through. -/
def CircuitBreaker.openCheck (cb : CircuitBreaker) (st : CircuitBreakerState)
    (now : Nat) : Except ExtensionError CircuitBreakerState :=
  match st.state with
  | .Open =>
    match st.last_failure_time with
    | some last =>
      if cb.timeout ≤ now - last then
        .ok { st with state := .HalfOpen, failure_count := 0, success_count := 0 }
      else
        .error (ExtensionError.unknown "Circuit breaker is open")
    | none => .error (ExtensionError.unknown "Circuit breaker is open")
  | _ => .ok st

/-- The bookkeeping of `CircuitBreaker::call` after the operation ran:
success increments the half-open success counter (closing the breaker at
`success_threshold`, resetting `failure_count`) or resets the closed failure
counter; failure increments `failure_count`, records `last_failure_time :=
now`, and opens the breaker from `Closed` at `failure_threshold` or from
`HalfOpen` immediately. -/
def CircuitBreaker.afterOp {T : Type} (cb : CircuitBreaker)
    (st : CircuitBreakerState) (now : Nat)
    (outcome : Except ExtensionError T) : CircuitBreakerState :=
  match outcome with
  | .ok _ =>
    match st.state with
    | .HalfOpen =>
      let st := { st with success_count := st.success_count + 1 }
      if cb.success_threshold ≤ st.success_count then
        { st with state := .Closed, failure_count := 0 }
      else st
    | .Closed => { st with failure_count := 0 }
    | _ => st
  | .error _ =>
    let st := { st with failure_count := st.failure_count + 1, last_failure_time := some now }
    match st.state with
    | .Closed =>
      if cb.failure_threshold ≤ st.failure_count then
        { st with state := .Open }
      else st
    | .HalfOpen => { st with state := .Open }
    | _ => st

/-- `CircuitBreaker::call` on a single call at time `now` whose wrapped
operation, if invoked, produces `op`: returns the state after the call, a
flag telling whether the operation was invoked, and the call's result. -/
def CircuitBreaker.call {T : Type} (cb : CircuitBreaker)
    (st : CircuitBreakerState) (now : Nat) (op : Except ExtensionError T) :
    CircuitBreakerState × Bool × Except ExtensionError T :=
  match cb.openCheck st now with
  | .error e => (st, false, .error e)
  | .ok st1 => (cb.afterOp st1 now op, true, op)

/-- Iterated failing calls, one per time point in the list. -/
def CircuitBreaker.failCalls (cb : CircuitBreaker) (e : ExtensionError) :
    List Nat → CircuitBreakerState → CircuitBreakerState
  | [], st => st
  | t :: ts, st =>
    cb.failCalls e ts (cb.call st t (.error e : Except ExtensionError Unit)).1

/-- Iterated succeeding calls, all at time `t`. -/
def CircuitBreaker.okCalls (cb : CircuitBreaker) :
    Nat → Nat → CircuitBreakerState → CircuitBreakerState
  | 0, _, st => st
  | n + 1, t, st =>
    cb.okCalls n t (cb.call st t (.ok () : Except ExtensionError Unit)).1

/-! ## Dependency resolver (src/extension/dependency.rs) -/

/-- `semver::Version` restricted to the numeric triple (no prerelease/build
metadata appears in the resolver's inputs). -/
structure Version where
  major : Nat
  minor : Nat
  patch : Nat
deriving DecidableEq

/-- The `<=` ordering on numeric versions (lexicographic). -/
def Version.le (a b : Version) : Bool :=
  decide (a.major < b.major) ||
    (decide (a.major = b.major) &&
      (decide (a.minor < b.minor) ||
        (decide (a.minor = b.minor) && decide (a.patch ≤ b.patch))))

/-- `ExtensionDependency`. -/
structure ExtensionDependency where
  unique_id : String
  version : Version
deriving DecidableEq

/-- `ExtensionDependency::satisfies`: `self.version <= *other_version` —
a floor check only. -/
def ExtensionDependency.satisfies (d : ExtensionDependency)
    (other_version : Version) : Bool :=
  d.version.le other_version

/-- One entry of the resolver (`ExtensionInfo`). -/
structure ExtensionInfo where
  unique_id : String
  version : Version
  dependencies : List ExtensionDependency

/-- `self.extensions.iter().find(|e| e.unique_id == unique_id)`. -/
def findExt (exts : List ExtensionInfo) (id : String) : Option ExtensionInfo :=
  exts.find? (fun e => e.unique_id == id)

/-- The resolver's error cases, carrying the data the source's `format!`
strings render: the re-entered node of a circular dependency, the
dependent/missing pair of a missing dependency, and the four values of a
version mismatch.  `fuelExhausted` is an artifact of the fuel-bounded
embedding of the recursion; it is never produced when the fuel exceeds the
recursion depth (which the source bounds through its `visited` set). -/
inductive ResolutionError
  | circular (id : String)
  | versionMismatch (dependent dep : String) (required found : Version)
  | missing (dependent dep : String)
  | fuelExhausted
deriving DecidableEq

mutual

/-- `DependencyResolver::resolve_extension`: skip an id already in
`resolved`; fail on an id already in the `visited` (on-stack) set; insert the
id into `visited`, resolve each declared dependency, push the id onto
`resolved`, and remove it from `visited`.  An id with no entry in the
resolver is skipped (nothing pushed), mirroring the source's `if let Some`.
The `HashSet` is a `List String` with head insertion and `erase`. -/
def resolveExtension (exts : List ExtensionInfo) :
    Nat → String → List String → List String →
    Except ResolutionError (List String × List String)
  | 0, _, _, _ => .error .fuelExhausted
  | fuel + 1, unique_id, resolved, visited =>
    if unique_id ∈ resolved then .ok (resolved, visited)
    else if unique_id ∈ visited then .error (.circular unique_id)
    else
      match findExt exts unique_id with
      | some ext =>
        match resolveDeps exts fuel ext.dependencies unique_id
            (unique_id :: visited) resolved with
        | .error err => .error err
        | .ok (resolved2, visited2) =>
          .ok (resolved2 ++ [unique_id], visited2.erase unique_id)
      | none => .ok (resolved, (unique_id :: visited).erase unique_id)

/-- The `for dep in &ext.dependencies` loop of `resolve_extension`: a missing
dependency entry or an unsatisfied version floor aborts with the matching
error; otherwise the dependency is resolved recursively. -/
def resolveDeps (exts : List ExtensionInfo) :
    Nat → List ExtensionDependency → String → List String → List String →
    Except ResolutionError (List String × List String)
  | 0, _, _, _, _ => .error .fuelExhausted
  | _ + 1, [], _, visited, resolved => .ok (resolved, visited)
  | fuel + 1, dep :: rest, unique_id, visited, resolved =>
    match findExt exts dep.unique_id with
    | some depExt =>
      if dep.satisfies depExt.version then
        match resolveExtension exts fuel dep.unique_id resolved visited with
        | .error err => .error err
        | .ok (resolved2, visited2) =>
          resolveDeps exts fuel rest unique_id visited2 resolved2
      else
        .error (.versionMismatch unique_id dep.unique_id dep.version
          depExt.version)
    | none => .error (.missing unique_id dep.unique_id)

end

/-- Fuel that strictly exceeds the recursion depth of `resolve_extension`:
along any call path every frame's id is distinct and found among `exts`
(dependencies are only recursed into after a successful lookup), so the
nesting is bounded by one `+ 2`-step budget per entry plus slack. -/
def resolveFuel (exts : List ExtensionInfo) : Nat :=
  exts.foldr (fun e acc => e.dependencies.length + 2 + acc) 2

/-- The `for ext in &self.extensions` loop of `DependencyResolver::resolve`,
threading `resolved` and the (empty again after each successful call)
`visited` set. -/
def resolveGo (exts : List ExtensionInfo) :
    List ExtensionInfo → List String → List String →
    Except ResolutionError (List String)
  | [], resolved, _ => .ok resolved
  | e :: rest, resolved, visited =>
    match resolveExtension exts (resolveFuel exts) e.unique_id resolved
        visited with
    | .error err => .error err
    | .ok (resolved2, visited2) => resolveGo exts rest resolved2 visited2

/-- `DependencyResolver::resolve`. -/
def DependencyResolver.resolve (exts : List ExtensionInfo) :
    Except ResolutionError (List String) :=
  resolveGo exts exts [] []

/-- The order property the spec claims of a successful resolution: no id is
emitted twice, and every emitted id appears only after all dependencies
declared by its (first-found) resolver entry. -/
def GoodOrder (exts : List ExtensionInfo) (l : List String) : Prop :=
  l.Nodup ∧ ∀ (i : Nat) (h : i < l.length) (e : ExtensionInfo),
    findExt exts (l.get ⟨i, h⟩) = some e →
    ∀ d ∈ e.dependencies, d.unique_id ∈ l.take i

/-- `a` declares a dependency on `b` (through `a`'s first-found entry). -/
def depEdge (exts : List ExtensionInfo) (a b : String) : Prop :=
  ∃ e, findExt exts a = some e
    ∧ b ∈ e.dependencies.map (fun d => d.unique_id)

/-- The invariant a successful `resolve_extension`/`resolveDeps` call
maintains: the output order extends the input order at the end, it stays a
`GoodOrder`, the visited set is restored, and every newly emitted id was not
on the stack when the call began. -/
structure ExtInv (exts : List ExtensionInfo) (resolved visited : List String)
    (out : List String × List String) : Prop where
  grows : ∃ l2, out.1 = resolved ++ l2
  good : GoodOrder exts out.1
  vis : out.2 = visited
  fresh : ∀ x ∈ out.1, x ∈ resolved ∨ x ∉ visited

def v100 : Version := ⟨1, 0, 0⟩

/-- The spec's three-extension example: A with no dependencies, B depending
on A, C depending on A and B. -/
def exampleABC : List ExtensionInfo :=
  [⟨"ext-a", v100, []⟩,
   ⟨"ext-b", v100, [⟨"ext-a", v100⟩]⟩,
   ⟨"ext-c", v100, [⟨"ext-a", v100⟩, ⟨"ext-b", v100⟩]⟩]

/-- The spec's circular example: A depends on B and B depends on A. -/
def exampleCycleAB : List ExtensionInfo :=
  [⟨"ext-a", v100, [⟨"ext-b", v100⟩]⟩,
   ⟨"ext-b", v100, [⟨"ext-a", v100⟩]⟩]

/-- A diamond: D depends on B and C, which both depend on A — A is reached
through two different acyclic branches. -/
def exampleDiamond : List ExtensionInfo :=
  [⟨"dep-d", v100, [⟨"dep-b", v100⟩, ⟨"dep-c", v100⟩]⟩,
   ⟨"dep-b", v100, [⟨"dep-a", v100⟩]⟩,
   ⟨"dep-c", v100, [⟨"dep-a", v100⟩]⟩,
   ⟨"dep-a", v100, []⟩]

/-- A graph with a cycle between A and B that the traversal never re-enters:
the earlier top-level entry X aborts resolution first with a
missing-dependency error. -/
def exampleMaskedCycle : List ExtensionInfo :=
  [⟨"ext-x", v100, [⟨"ext-m", v100⟩]⟩,
   ⟨"ext-a", v100, [⟨"ext-b", v100⟩]⟩,
   ⟨"ext-b", v100, [⟨"ext-a", v100⟩]⟩]

theorem toBytesBE_length : ∀ w n, (toBytesBE w n).length = w := by
  intro w
  induction w with
  | zero => intro n; rfl
  | succ w ih =>
    intro n
    simp [toBytesBE, ih]

theorem foldl_be_acc (l : List Nat) :
    ∀ a, l.foldl (fun acc b => acc * 256 + b) a
      = a * 256 ^ l.length + fromBytesBE l := by
  induction l with
  | nil => intro a; simp [fromBytesBE]
  | cons b l ih =>
    intro a
    have hb : fromBytesBE (b :: l) = b * 256 ^ l.length + fromBytesBE l := by
      show List.foldl _ (0 * 256 + b) l = _
      rw [ih (0 * 256 + b)]
      ring_nf
    show List.foldl _ (a * 256 + b) l = _
    rw [ih (a * 256 + b), hb]
    simp [List.length_cons, pow_succ]
    ring

theorem fromBytesBE_toBytesBE : ∀ w n, fromBytesBE (toBytesBE w n) = n % 256 ^ w := by
  intro w
  induction w with
  | zero => intro n; simp [toBytesBE, fromBytesBE, Nat.mod_one]
  | succ w ih =>
    intro n
    show fromBytesBE (toBytesBE w (n / 256) ++ [n % 256]) = _
    unfold fromBytesBE
    rw [List.foldl_append]
    show (toBytesBE w (n / 256)).foldl _ 0 * 256 + n % 256 = _
    have := ih (n / 256)
    unfold fromBytesBE at this
    rw [this]
    have hm : 256 ^ (w + 1) = 256 * 256 ^ w := by ring
    rw [hm, Nat.mod_mul]
    ring

theorem read_exact_append (k : Nat) (msg : String) (a r : List Nat)
    (h : a.length = k) : read_exact k msg (a ++ r) = .ok (a, r) := by
  subst h
  unfold read_exact
  rw [if_pos (by simp)]
  rw [List.take_left, List.drop_left]

theorem fromBytesBE_toBytesBE_of_lt {w n : Nat} (h : n < 256 ^ w) :
    fromBytesBE (toBytesBE w n) = n := by
  rw [fromBytesBE_toBytesBE]
  exact Nat.mod_eq_of_lt h

/-- C2: For every u64 request_id (including 0 and u64::MAX), every u8 status,
every u32 version, u32 message_length, and u32 variable_header_size, writing a
TransportTcpHeader with write_response and then decoding the produced bytes
with from_stream yields a header whose message_length, request_id, status,
version, and variable_header_size are identical to the original's. -/
theorem header_write_read_roundtrip (h : TransportTcpHeader) (content : List Nat)
    (hml : h.message_length < 2 ^ 32) (hrid : h.request_id < 2 ^ 64)
    (hst : h.status < 2 ^ 8) (hv : h.version < 2 ^ 32)
    (hvhs : h.variable_header_size < 2 ^ 32) :
    TransportTcpHeader.from_stream (h.write_response content) = .ok h := by
  have h256 : (256 : Nat) ^ 4 = 2 ^ 32 := by norm_num
  have h2564 : (256 : Nat) ^ 8 = 2 ^ 64 := by norm_num
  have e1 : fromBytesBE (toBytesBE 4 h.message_length) = h.message_length :=
    fromBytesBE_toBytesBE_of_lt (by rw [h256]; exact hml)
  have e2 : fromBytesBE (toBytesBE 8 h.request_id) = h.request_id :=
    fromBytesBE_toBytesBE_of_lt (by rw [h2564]; exact hrid)
  have e3 : fromBytesBE (toBytesBE 4 h.version) = h.version :=
    fromBytesBE_toBytesBE_of_lt (by rw [h256]; exact hv)
  have e4 : fromBytesBE (toBytesBE 4 h.variable_header_size) = h.variable_header_size :=
    fromBytesBE_toBytesBE_of_lt (by rw [h256]; exact hvhs)
  unfold TransportTcpHeader.write_response TransportTcpHeader.from_stream
  simp only [List.append_assoc]
  rw [read_exact_append 2 _ MARKER_BYTES _ rfl]
  simp only []
  rw [if_neg (by simp)]
  rw [read_exact_append 4 _ (toBytesBE 4 h.message_length) _ (toBytesBE_length 4 _)]
  simp only []
  rw [read_exact_append 8 _ (toBytesBE 8 h.request_id) _ (toBytesBE_length 8 _)]
  simp only []
  rw [read_exact_append 1 _ [h.status] _ rfl]
  simp only []
  rw [read_exact_append 4 _ (toBytesBE 4 h.version) _ (toBytesBE_length 4 _)]
  simp only []
  rw [read_exact_append 4 _ (toBytesBE 4 h.variable_header_size) _ (toBytesBE_length 4 _)]
  simp only [List.headD, e1, e2, e3, e4]

/-- C2 witness at a concrete header with request_id = u64::MAX. -/
theorem header_write_read_roundtrip_witness :
    TransportTcpHeader.from_stream
      (TransportTcpHeader.write_response ⟨22, 2 ^ 64 - 1, 1, 3000099, 9⟩ [1, 2, 3])
      = .ok ⟨22, 2 ^ 64 - 1, 1, 3000099, 9⟩ :=
  header_write_read_roundtrip ⟨22, 2 ^ 64 - 1, 1, 3000099, 9⟩ [1, 2, 3]
    (by norm_num) (by norm_num) (by norm_num) (by norm_num) (by norm_num)

/-- C9: For every input byte stream whose first two bytes are not the literal
marker "ES", TransportTcpHeader::from_stream returns an invalid-data framing
error — it never panics (the embedding is a total function) and never returns
a header. -/
theorem from_stream_bad_marker_invalid_data :
    ∀ s : List Nat, s.take 2 ≠ MARKER_BYTES →
      ∃ e, TransportTcpHeader.from_stream s = .error e
        ∧ e.kind = IoErrorKind.InvalidData := by
  intro s hs
  by_cases h2 : 2 ≤ s.length
  · refine ⟨⟨.InvalidData, "Invalid header prefix"⟩, ?_, rfl⟩
    unfold TransportTcpHeader.from_stream read_exact
    rw [if_pos h2]
    simp [hs]
  · refine ⟨⟨.InvalidData, "Unable to parse prefix"⟩, ?_, rfl⟩
    unfold TransportTcpHeader.from_stream read_exact
    rw [if_neg h2]

/-- C9 witness: a concrete three-byte stream with a wrong marker. -/
theorem from_stream_bad_marker_invalid_data_witness :
    ([0, 1, 2] : List Nat).take 2 ≠ MARKER_BYTES ∧
    ∃ e, TransportTcpHeader.from_stream [0, 1, 2] = .error e
      ∧ e.kind = IoErrorKind.InvalidData :=
  ⟨by decide, from_stream_bad_marker_invalid_data [0, 1, 2] (by decide)⟩

/-- C10: TransportTcpHeader::new is not total: whenever
content_size + 8 + 1 + 4 + variable_header_size fits in u32 the constructed
header's message_length equals that sum, but for content_size = u32::MAX the
`expect` aborts the process (modelled as `none`). -/
theorem transport_header_new_overflow :
    (∀ request_id status version content_size variable_header_size : Nat,
      content_size + 8 + 1 + 4 + variable_header_size < 2 ^ 32 →
      TransportTcpHeader.new request_id status version content_size
          variable_header_size
        = some ⟨content_size + 8 + 1 + 4 + variable_header_size,
            request_id, status, version, variable_header_size⟩)
    ∧ TransportTcpHeader.new 0 0 0 (2 ^ 32 - 1) 0 = none := by
  constructor
  · intro rid st v cs vhs hlt
    simp [TransportTcpHeader.new, REQUEST_ID_SIZE, STATUS_SIZE, VERSION_ID_SIZE]
    omega
  · decide

/-- C10 witness: a concrete in-range header construction. -/
theorem transport_header_new_overflow_witness :
    TransportTcpHeader.new 123 1 1000 100 50
      = some ⟨100 + 8 + 1 + 4 + 50, 123, 1, 1000, 50⟩ :=
  transport_header_new_overflow.1 123 1 1000 100 50 (by norm_num)

/-! ## Lifecycle claims -/

theorem can_transition_to_eq_amended :
    ∀ s t, ExtensionState.can_transition_to s t = specTransitionTableAmended s t := by
  intro s t
  cases s <;> cases t <;> rfl

/-- C1 counterexample: the claim requires every transition out of the
terminal state `Stopped` to fail and leave the state unchanged, but the
code's wildcard arm `(_, Failed) => true` accepts `Stopped → Failed`: the
pair is outside the spec's transition table, yet `transition_to` succeeds
and commits the new state. -/
theorem transition_to_stopped_failed_succeeds :
    specTransitionTable .Stopped .Failed = false
      ∧ LifecycleManager.transition_to .Stopped .Failed = (.Failed, .ok ()) := by
  constructor
  · rfl
  · rfl

/-- C1 (amended): transition_to from state s to t succeeds and updates the
current state to t exactly when (s, t) is in the spec's transition table
EXTENDED with s → Failed for every s, the terminal states Stopped and Failed
included; for every other pair it returns an error and leaves the state
unchanged at s. -/
theorem transition_to_matches_amended_table :
    ∀ s t : ExtensionState,
      (specTransitionTableAmended s t = true →
        LifecycleManager.transition_to s t = (t, .ok ()))
      ∧ (specTransitionTableAmended s t = false →
        LifecycleManager.transition_to s t
          = (s, .error (ExtensionError.initialization
              ("Invalid state transition from " ++ stateName s
                ++ " to " ++ stateName t)))) := by
  intro s t
  constructor
  · intro h
    unfold LifecycleManager.transition_to
    rw [if_pos (by rw [can_transition_to_eq_amended, h])]
  · intro h
    unfold LifecycleManager.transition_to
    rw [if_neg (by rw [can_transition_to_eq_amended, h]; exact Bool.false_ne_true)]

/-- C1 witness: a valid transition and an invalid one, both concrete. -/
theorem transition_to_matches_amended_table_witness :
    LifecycleManager.transition_to .Created .Initializing
        = (.Initializing, .ok ())
      ∧ LifecycleManager.transition_to .Stopped .Running
        = (.Stopped, .error (ExtensionError.initialization
            ("Invalid state transition from " ++ stateName .Stopped
              ++ " to " ++ stateName .Running))) :=
  ⟨(transition_to_matches_amended_table .Created .Initializing).1 (by decide),
   (transition_to_matches_amended_table .Stopped .Running).2 (by decide)⟩

/-- C7: Host-registration failure never aborts startup: for every outcome of
the registration exchange (connection/transport error, or a response with
success = false), the runner's registration step returns Ok — the error is
only logged — and the startup sequence proceeds to transition the lifecycle
to Running. -/
theorem registration_failure_never_aborts :
    ∀ regOutcome : Except ExtensionError RegistrationResponse,
      ExtensionRunner.register_with_opensearch regOutcome = .ok ()
        ∧ ExtensionRunner.runStartup (.ok ()) regOutcome = .ok .Running := by
  intro regOutcome
  match regOutcome with
  | .error e => exact ⟨rfl, rfl⟩
  | .ok r =>
    obtain ⟨succ, a, b, c, d⟩ := r
    cases succ
    · exact ⟨rfl, rfl⟩
    · exact ⟨rfl, rfl⟩

/-! ## Retry executor claims -/

theorem retryLoop_ok {T : Type} (policy : RetryPolicy)
    (op : Nat → Except ExtensionError T) (k : Nat) (v : T) :
    ∀ r a, a ≤ k → k ≤ a + r →
      (∀ j, a ≤ j → j < k → ∃ e, op j = .error e) → op k = .ok v →
      retryLoop policy op r a = (.ok v, k - a + 1) := by
  intro r
  induction r with
  | zero =>
    intro a h1 h2 hf hk
    have ha : a = k := by omega
    subst ha
    simp [retryLoop, hk]
  | succ r ih =>
    intro a h1 h2 hf hk
    rcases eq_or_lt_of_le h1 with he | hlt
    · subst he
      simp [retryLoop, hk]
    · obtain ⟨e, hop⟩ := hf a le_rfl hlt
      have hrec := ih (a + 1) (by omega) (by omega)
        (fun j hj1 hj2 => hf j (by omega) hj2) hk
      simp [retryLoop, hop, hrec]
      omega

theorem retryLoop_fail {T : Type} (policy : RetryPolicy)
    (op : Nat → Except ExtensionError T) (es : Nat → ExtensionError) :
    ∀ r a, (∀ j, a ≤ j → j ≤ a + r → op j = .error (es j)) →
      retryLoop policy op r a
        = (.error (ExtensionError.unknown
            ("Operation failed after " ++ toString policy.max_attempts
              ++ " attempts: " ++ (es (a + r)).display)), r + 1) := by
  intro r
  induction r with
  | zero =>
    intro a hf
    have h0 := hf a le_rfl (by omega)
    simp [retryLoop, h0]
  | succ r ih =>
    intro a hf
    have h0 := hf a le_rfl (by omega)
    have hrec := ih (a + 1) (fun j h1 h2 => hf j (by omega) (by omega))
    have harg : a + 1 + r = a + (r + 1) := by omega
    rw [harg] at hrec
    simp [retryLoop, h0, hrec]

/-- C4 counterexample: with max_attempts = 0 (a legal `u32` value for the
policy) an always-failing operation is still invoked once — not the "exactly
n = 0 times" the claim requires. -/
theorem retry_zero_attempts_invokes_once :
    (retry_with_policy (⟨0, 100, 30000, true⟩ : RetryPolicy)
        (fun _ => (.error (ExtensionError.Unknown "boom") :
          Except ExtensionError Unit))).2 = 1
      ∧ (1 : Nat) ≠ 0 :=
  ⟨rfl, by decide⟩

/-- C4 (amended): if the operation succeeds on some attempt k with
1 ≤ k ≤ max_attempts, retry_with_policy invokes it exactly k times and
returns that attempt's success value; if the operation fails on every
attempt, it invokes it exactly max(max_attempts, 1) times and returns a
wrapped error naming the policy's configured max_attempts and the last
underlying error. -/
theorem retry_with_policy_behavior :
    (∀ (T : Type) (policy : RetryPolicy) (op : Nat → Except ExtensionError T)
        (k : Nat) (v : T),
      1 ≤ k → k ≤ policy.max_attempts →
      (∀ j, 1 ≤ j → j < k → ∃ e, op j = .error e) → op k = .ok v →
      retry_with_policy policy op = (.ok v, k))
    ∧ (∀ (T : Type) (policy : RetryPolicy) (op : Nat → Except ExtensionError T)
        (es : Nat → ExtensionError),
      (∀ j, 1 ≤ j → j ≤ max policy.max_attempts 1 → op j = .error (es j)) →
      retry_with_policy policy op
        = (.error (ExtensionError.unknown
            ("Operation failed after " ++ toString policy.max_attempts
              ++ " attempts: " ++ (es (max policy.max_attempts 1)).display)),
           max policy.max_attempts 1)) := by
  constructor
  · intro T policy op k v h1 h2 hf hk
    have hrw := retryLoop_ok policy op k v (policy.max_attempts - 1) 1
      h1 (by omega) hf hk
    unfold retry_with_policy
    rw [hrw]
    congr 1
    omega
  · intro T policy op es hf
    have hrw := retryLoop_fail policy op es (policy.max_attempts - 1) 1
      (fun j hj1 hj2 => hf j hj1 (by omega))
    have harg : 1 + (policy.max_attempts - 1) = max policy.max_attempts 1 := by
      omega
    rw [harg] at hrw
    unfold retry_with_policy
    rw [hrw]
    congr 1
    omega

/-- C4 witness: max_attempts = 3 and an always-failing operation — three
invocations and a wrapped error naming 3 attempts and the last error. -/
theorem retry_with_policy_behavior_witness :
    retry_with_policy (⟨3, 100, 30000, true⟩ : RetryPolicy)
        (fun _ => (.error (ExtensionError.Unknown "boom") :
          Except ExtensionError Unit))
      = (.error (ExtensionError.unknown
          ("Operation failed after " ++ toString (3 : Nat)
            ++ " attempts: " ++ (ExtensionError.Unknown "boom").display)),
         max 3 1) :=
  retry_with_policy_behavior.2 Unit ⟨3, 100, 30000, true⟩
    (fun _ => (.error (ExtensionError.Unknown "boom") :
      Except ExtensionError Unit))
    (fun _ => ExtensionError.Unknown "boom")
    (fun j h1 h2 => rfl)


/-! ## Circuit breaker claims -/

theorem call_closed_fail (cb : CircuitBreaker) (e : ExtensionError)
    (t fc sc : Nat) (lf : Option Nat) :
    cb.call ⟨.Closed, fc, sc, lf⟩ t (.error e : Except ExtensionError Unit)
      = (if cb.failure_threshold ≤ fc + 1 then ⟨.Open, fc + 1, sc, some t⟩
          else ⟨.Closed, fc + 1, sc, some t⟩, true, .error e) := by
  by_cases hc : cb.failure_threshold ≤ fc + 1 <;>
    simp [CircuitBreaker.call, CircuitBreaker.openCheck, CircuitBreaker.afterOp, hc]

theorem call_halfopen_ok (cb : CircuitBreaker) (t fc sc : Nat) (lf : Option Nat) :
    cb.call ⟨.HalfOpen, fc, sc, lf⟩ t (.ok () : Except ExtensionError Unit)
      = (if cb.success_threshold ≤ sc + 1 then ⟨.Closed, 0, sc + 1, lf⟩
          else ⟨.HalfOpen, fc, sc + 1, lf⟩, true, .ok ()) := by
  by_cases hc : cb.success_threshold ≤ sc + 1 <;>
    simp [CircuitBreaker.call, CircuitBreaker.openCheck, CircuitBreaker.afterOp, hc]

theorem getLast?_or_shift (ts : List Nat) (x y : Option Nat)
    (h : ts ≠ []) : ts.getLast?.or x = ts.getLast?.or y := by
  have hsome : ts.getLast?.isSome := List.getLast?_isSome.mpr h
  obtain ⟨l, hl⟩ := Option.isSome_iff_exists.mp hsome
  rw [hl]
  rfl

theorem failCalls_closed_below (cb : CircuitBreaker) (e : ExtensionError) :
    ∀ ts fc sc lf, fc + ts.length < cb.failure_threshold →
      cb.failCalls e ts ⟨.Closed, fc, sc, lf⟩
        = ⟨.Closed, fc + ts.length, sc, ts.getLast?.or lf⟩ := by
  intro ts
  induction ts with
  | nil =>
    intro fc sc lf h
    simp [CircuitBreaker.failCalls, List.getLast?, Option.or]
  | cons t ts ih =>
    intro fc sc lf h
    show cb.failCalls e ts (cb.call ⟨.Closed, fc, sc, lf⟩ t
      (.error e : Except ExtensionError Unit)).1 = _
    rw [call_closed_fail]
    rw [if_neg (by simp only [List.length_cons] at h; omega)]
    show cb.failCalls e ts ⟨.Closed, fc + 1, sc, some t⟩ = _
    rw [ih (fc + 1) sc (some t) (by simp only [List.length_cons] at h; omega)]
    have hlen : fc + 1 + ts.length = fc + (t :: ts).length := by
      simp only [List.length_cons]; omega
    rw [hlen]
    match ts with
    | [] => simp [List.getLast?, Option.or]
    | t2 :: ts2 =>
      rw [List.getLast?_cons_cons, getLast?_or_shift (t2 :: ts2) (some t) lf (by simp)]

theorem failCalls_opens (cb : CircuitBreaker) (e : ExtensionError) :
    ∀ ts fc sc lf, ts ≠ [] → fc + ts.length = cb.failure_threshold →
      cb.failCalls e ts ⟨.Closed, fc, sc, lf⟩
        = ⟨.Open, cb.failure_threshold, sc, ts.getLast?⟩ := by
  intro ts
  induction ts with
  | nil => intro fc sc lf h1 h2; exact absurd rfl h1
  | cons t ts ih =>
    intro fc sc lf h1 h2
    show cb.failCalls e ts (cb.call ⟨.Closed, fc, sc, lf⟩ t
      (.error e : Except ExtensionError Unit)).1 = _
    rw [call_closed_fail]
    match ts with
    | [] =>
      rw [if_pos (by simp only [List.length_cons, List.length_nil] at h2; omega)]
      show (⟨.Open, fc + 1, sc, some t⟩ : CircuitBreakerState) = _
      have : fc + 1 = cb.failure_threshold := by
        simp only [List.length_cons, List.length_nil] at h2; omega
      rw [this]
      rfl
    | t2 :: ts2 =>
      rw [if_neg (by simp only [List.length_cons] at h2; omega)]
      show cb.failCalls e (t2 :: ts2) ⟨.Closed, fc + 1, sc, some t⟩ = _
      rw [ih (fc + 1) sc (some t) (by simp)
        (by simp only [List.length_cons] at h2 ⊢; omega)]
      rw [List.getLast?_cons_cons]

theorem okCalls_halfopen_below (cb : CircuitBreaker) :
    ∀ n t fc sc lf, sc + n < cb.success_threshold →
      cb.okCalls n t ⟨.HalfOpen, fc, sc, lf⟩ = ⟨.HalfOpen, fc, sc + n, lf⟩ := by
  intro n
  induction n with
  | zero => intro t fc sc lf h; simp [CircuitBreaker.okCalls]
  | succ n ih =>
    intro t fc sc lf h
    show cb.okCalls n t (cb.call ⟨.HalfOpen, fc, sc, lf⟩ t
      (.ok () : Except ExtensionError Unit)).1 = _
    rw [call_halfopen_ok]
    rw [if_neg (by omega)]
    show cb.okCalls n t ⟨.HalfOpen, fc, sc + 1, lf⟩ = _
    rw [ih t fc (sc + 1) lf (by omega)]
    have : sc + 1 + n = sc + (n + 1) := by omega
    rw [this]

theorem okCalls_closes (cb : CircuitBreaker) :
    ∀ n t fc sc lf, 1 ≤ n → sc + n = cb.success_threshold →
      cb.okCalls n t ⟨.HalfOpen, fc, sc, lf⟩
        = ⟨.Closed, 0, cb.success_threshold, lf⟩ := by
  intro n
  induction n with
  | zero => intro t fc sc lf h1 h2; omega
  | succ n ih =>
    intro t fc sc lf h1 h2
    show cb.okCalls n t (cb.call ⟨.HalfOpen, fc, sc, lf⟩ t
      (.ok () : Except ExtensionError Unit)).1 = _
    rw [call_halfopen_ok]
    match n, h2 with
    | 0, h2 =>
      rw [if_pos (by omega)]
      show (⟨.Closed, 0, sc + 1, lf⟩ : CircuitBreakerState) = _
      have : sc + 1 = cb.success_threshold := by omega
      rw [this]
    | m + 1, h2 =>
      rw [if_neg (by omega)]
      show cb.okCalls (m + 1) t ⟨.HalfOpen, fc, sc + 1, lf⟩ = _
      exact ih t fc (sc + 1) lf (by omega) (by omega)

theorem call_open_before_timeout (cb : CircuitBreaker) {T : Type}
    (op : Except ExtensionError T) (now l fc sc : Nat)
    (ht : now - l < cb.timeout) :
    cb.call ⟨.Open, fc, sc, some l⟩ now op
      = (⟨.Open, fc, sc, some l⟩, false,
         .error (ExtensionError.unknown "Circuit breaker is open")) := by
  simp [CircuitBreaker.call, CircuitBreaker.openCheck,
    show ¬ cb.timeout ≤ now - l by omega]

theorem call_open_elapsed (cb : CircuitBreaker) {T : Type}
    (op : Except ExtensionError T) (now l fc sc : Nat)
    (ht : cb.timeout ≤ now - l) :
    cb.openCheck ⟨.Open, fc, sc, some l⟩ now = .ok ⟨.HalfOpen, 0, 0, some l⟩
      ∧ cb.call ⟨.Open, fc, sc, some l⟩ now op
          = (cb.afterOp ⟨.HalfOpen, 0, 0, some l⟩ now op, true, op) := by
  have hck : cb.openCheck ⟨.Open, fc, sc, some l⟩ now
      = .ok ⟨.HalfOpen, 0, 0, some l⟩ := by
    simp [CircuitBreaker.openCheck, ht]
  refine ⟨hck, ?_⟩
  unfold CircuitBreaker.call
  rw [hck]

/-- C3: The circuit breaker follows the specified state machine.  With
failure_threshold = f ≥ 1 and success_threshold = s ≥ 1: a fresh breaker is
Closed with both counters zero; fewer than f consecutive failing calls leave
it Closed; f consecutive failing calls move it to Open and record the time
of the last failure; while Open, a call before `timeout` has elapsed since
the last recorded failure is rejected with the circuit-open error, the state
unchanged and the wrapped operation not invoked; a call once `timeout` has
elapsed moves the breaker to HalfOpen with both counters reset, the
operation is invoked and its result returned; in HalfOpen, fewer than s
consecutive successful permitted calls leave it HalfOpen, s of them return
it to Closed, and a failing permitted call returns it to Open. -/
theorem circuit_breaker_state_machine (cb : CircuitBreaker)
    (hf : 1 ≤ cb.failure_threshold) (hs : 1 ≤ cb.success_threshold) :
    initialCircuitBreakerState = ⟨.Closed, 0, 0, none⟩
    ∧ (∀ e ts, ts.length < cb.failure_threshold →
        (cb.failCalls e ts initialCircuitBreakerState).state = .Closed)
    ∧ (∀ e ts, ts.length = cb.failure_threshold →
        cb.failCalls e ts initialCircuitBreakerState
          = ⟨.Open, cb.failure_threshold, 0, ts.getLast?⟩)
    ∧ (∀ (T : Type) (op : Except ExtensionError T) now l fc sc,
        now - l < cb.timeout →
        cb.call ⟨.Open, fc, sc, some l⟩ now op
          = (⟨.Open, fc, sc, some l⟩, false,
             .error (ExtensionError.unknown "Circuit breaker is open")))
    ∧ (∀ (T : Type) (op : Except ExtensionError T) now l fc sc,
        cb.timeout ≤ now - l →
        cb.openCheck ⟨.Open, fc, sc, some l⟩ now = .ok ⟨.HalfOpen, 0, 0, some l⟩
          ∧ (cb.call ⟨.Open, fc, sc, some l⟩ now op).2.1 = true
          ∧ (cb.call ⟨.Open, fc, sc, some l⟩ now op).2.2 = op)
    ∧ (∀ n t fc lf, n < cb.success_threshold →
        cb.okCalls n t ⟨.HalfOpen, fc, 0, lf⟩ = ⟨.HalfOpen, fc, n, lf⟩)
    ∧ (∀ t fc lf,
        cb.okCalls cb.success_threshold t ⟨.HalfOpen, fc, 0, lf⟩
          = ⟨.Closed, 0, cb.success_threshold, lf⟩)
    ∧ (∀ (e : ExtensionError) now fc sc lf,
        cb.call ⟨.HalfOpen, fc, sc, lf⟩ now
            (.error e : Except ExtensionError Unit)
          = (⟨.Open, fc + 1, sc, some now⟩, true, .error e)) := by
  refine ⟨rfl, ?_, ?_, ?_, ?_, ?_, ?_, ?_⟩
  · intro e ts hlen
    rw [show initialCircuitBreakerState = ⟨.Closed, 0, 0, none⟩ from rfl]
    rw [failCalls_closed_below cb e ts 0 0 none (by omega)]
  · intro e ts hlen
    rw [show initialCircuitBreakerState = ⟨.Closed, 0, 0, none⟩ from rfl]
    rw [failCalls_opens cb e ts 0 0 none
      (by intro hnil; rw [hnil] at hlen; simp at hlen; omega) (by omega)]
  · intro T op now l fc sc ht
    exact call_open_before_timeout cb op now l fc sc ht
  · intro T op now l fc sc ht
    obtain ⟨h1, h2⟩ := call_open_elapsed cb op now l fc sc ht
    exact ⟨h1, by rw [h2], by rw [h2]⟩
  · intro n t fc lf hlt
    have := okCalls_halfopen_below cb n t fc 0 lf (by omega)
    rwa [Nat.zero_add] at this
  · intro t fc lf
    exact okCalls_closes cb cb.success_threshold t fc 0 lf (by omega) (by omega)
  · intro e now fc sc lf
    simp [CircuitBreaker.call, CircuitBreaker.openCheck, CircuitBreaker.afterOp]

/-- C3 witness: failure_threshold = 2, success_threshold = 2, timeout = 100 —
two failing calls at times 5 and 7 open the breaker recording time 7. -/
theorem circuit_breaker_state_machine_witness :
    (⟨2, 2, 100⟩ : CircuitBreaker).failCalls (ExtensionError.Unknown "fail")
        [5, 7] initialCircuitBreakerState
      = ⟨.Open, 2, 0, ([5, 7] : List Nat).getLast?⟩ :=
  (circuit_breaker_state_machine ⟨2, 2, 100⟩ (by decide) (by decide)).2.2.1
    (ExtensionError.Unknown "fail") [5, 7] (by decide)

/-! ## Wrapper error kind claims -/

theorem retryLoop_op_ok {T : Type} (policy : RetryPolicy)
    (op : Nat → Except ExtensionError T) (r a : Nat) (v : T)
    (hop : op a = .ok v) : retryLoop policy op r a = (.ok v, 1) := by
  unfold retryLoop
  rw [hop]

theorem retryLoop_op_err_succ {T : Type} (policy : RetryPolicy)
    (op : Nat → Except ExtensionError T) (r a : Nat) (e2 : ExtensionError)
    (hop : op a = .error e2) :
    retryLoop policy op (r + 1) a
      = ((retryLoop policy op r (a + 1)).1,
         (retryLoop policy op r (a + 1)).2 + 1) := by
  conv_lhs => unfold retryLoop
  rw [hop]

theorem retryLoop_error_unknown {T : Type} (policy : RetryPolicy)
    (op : Nat → Except ExtensionError T) :
    ∀ r a e, (retryLoop policy op r a).1 = .error e →
      ∃ m, e = ExtensionError.Unknown m := by
  intro r
  induction r with
  | zero =>
    intro a e h
    cases hop : op a with
    | ok v =>
      rw [retryLoop_op_ok policy op 0 a v hop] at h
      exact absurd h (by simp)
    | error e2 =>
      unfold retryLoop at h
      rw [hop] at h
      simp [ExtensionError.unknown] at h
      exact ⟨_, h.symm⟩
  | succ r ih =>
    intro a e h
    cases hop : op a with
    | ok v =>
      rw [retryLoop_op_ok policy op (r + 1) a v hop] at h
      exact absurd h (by simp)
    | error e2 =>
      rw [retryLoop_op_err_succ policy op r a e2 hop] at h
      exact ih (a + 1) e h

theorem openCheck_error_is_circuit_open (cb : CircuitBreaker)
    (st : CircuitBreakerState) (now : Nat) (e : ExtensionError)
    (h : cb.openCheck st now = .error e) :
    e = ExtensionError.unknown "Circuit breaker is open" := by
  cases hst : st.state with
  | Open =>
    cases hlf : st.last_failure_time with
    | some last =>
      by_cases hto : cb.timeout ≤ now - last
      · simp [CircuitBreaker.openCheck, hst, hlf, hto] at h
      · simp [CircuitBreaker.openCheck, hst, hlf, hto] at h
        exact h.symm
    | none =>
      simp [CircuitBreaker.openCheck, hst, hlf] at h
      exact h.symm
  | Closed => simp [CircuitBreaker.openCheck, hst] at h
  | HalfOpen => simp [CircuitBreaker.openCheck, hst] at h

/-- C6 counterexample: an operation may itself fail with the `Unknown` kind
(the repository's own tests do exactly that), and then the retry-exhaustion
wrapper error has the SAME kind as the underlying error — the claimed
distinguishability fails for that underlying error kind. -/
theorem retry_wrap_shares_unknown_kind :
    (retry_with_policy (⟨3, 100, 30000, true⟩ : RetryPolicy)
        (fun _ => (.error (ExtensionError.Unknown "fail") :
          Except ExtensionError Unit))).1
      = .error (ExtensionError.Unknown
          "Operation failed after 3 attempts: Unknown error: fail")
    ∧ (ExtensionError.Unknown
        "Operation failed after 3 attempts: Unknown error: fail").kind
      = (ExtensionError.Unknown "fail").kind :=
  ⟨rfl, rfl⟩

/-- C6 (amended): both resilience wrappers surface their own failures as
ordinary `ExtensionError`s of kind `Unknown` — the retry executor's
exhaustion error and the circuit breaker's open-rejection error are always
of kind `Unknown`, hence distinguishable from the underlying operation's own
error kind exactly when that kind is not `Unknown` itself. -/
theorem wrapper_errors_kind_unknown :
    (∀ (T : Type) (policy : RetryPolicy) (op : Nat → Except ExtensionError T)
        (e : ExtensionError),
      (retry_with_policy policy op).1 = .error e →
      e.kind = ExtensionErrorKind.Unknown)
    ∧ (∀ (T : Type) (cb : CircuitBreaker) (st : CircuitBreakerState)
        (now : Nat) (op : Except ExtensionError T),
      (cb.call st now op).2.1 = false →
      (cb.call st now op).2.2
        = .error (ExtensionError.unknown "Circuit breaker is open"))
    ∧ (∀ (T : Type) (policy : RetryPolicy) (op : Nat → Except ExtensionError T)
        (e e' : ExtensionError),
      (retry_with_policy policy op).1 = .error e →
      e'.kind ≠ ExtensionErrorKind.Unknown → e.kind ≠ e'.kind) := by
  have hret : ∀ (T : Type) (policy : RetryPolicy)
      (op : Nat → Except ExtensionError T) (e : ExtensionError),
      (retry_with_policy policy op).1 = .error e →
      e.kind = ExtensionErrorKind.Unknown := by
    intro T policy op e h
    obtain ⟨m, hm⟩ :=
      retryLoop_error_unknown policy op (policy.max_attempts - 1) 1 e h
    rw [hm]
    rfl
  refine ⟨hret, ?_, ?_⟩
  · intro T cb st now op h
    cases hck : cb.openCheck st now with
    | ok st1 =>
      have hcall : cb.call st now op = (cb.afterOp st1 now op, true, op) := by
        unfold CircuitBreaker.call
        rw [hck]
      rw [hcall] at h
      exact absurd h (by simp)
    | error e =>
      have hcall : cb.call st now op = (st, false, .error e) := by
        unfold CircuitBreaker.call
        rw [hck]
      rw [hcall, openCheck_error_is_circuit_open cb st now e hck]
  · intro T policy op e e' h1 h2
    rw [hret T policy op e h1]
    exact fun hc => h2 hc.symm

/-- C6 witness: a rejected call while Open (timeout not yet elapsed) carries
the kind-`Unknown` circuit-open error. -/
theorem wrapper_errors_kind_unknown_witness :
    ((⟨2, 2, 100⟩ : CircuitBreaker).call ⟨.Open, 2, 0, some 5⟩ 10
        (.ok () : Except ExtensionError Unit)).2.2
      = .error (ExtensionError.unknown "Circuit breaker is open") :=
  wrapper_errors_kind_unknown.2.1 Unit ⟨2, 2, 100⟩ ⟨.Open, 2, 0, some 5⟩ 10
    (.ok ()) rfl

/-! ## Dependency resolver claims -/

theorem take_append_left_of_le {l1 l2 : List String} {i : Nat}
    (h : i ≤ l1.length) : (l1 ++ l2).take i = l1.take i := by
  rw [List.take_append_eq_append_take]
  have h0 : i - l1.length = 0 := by omega
  rw [h0, List.take_zero, List.append_nil]

theorem goodOrder_nil (exts : List ExtensionInfo) : GoodOrder exts [] := by
  refine ⟨List.nodup_nil, ?_⟩
  intro i hi
  simp at hi

theorem resolve_inv (exts : List ExtensionInfo) : ∀ fuel : Nat,
    (∀ id resolved visited out,
      resolveExtension exts fuel id resolved visited = .ok out →
      GoodOrder exts resolved →
      ExtInv exts resolved visited out
        ∧ (∀ e, findExt exts id = some e → id ∈ out.1))
    ∧ (∀ deps id visited resolved out,
      resolveDeps exts fuel deps id visited resolved = .ok out →
      GoodOrder exts resolved →
      ExtInv exts resolved visited out
        ∧ (∀ d ∈ deps, d.unique_id ∈ out.1)) := by
  intro fuel
  induction fuel with
  | zero =>
    constructor
    · intro id resolved visited out h hg
      exact nomatch h
    · intro deps id visited resolved out h hg
      exact nomatch h
  | succ fuel ih =>
    obtain ⟨Pf, Qf⟩ := ih
    constructor
    · -- resolveExtension at fuel + 1
      intro id resolved visited out h hg
      simp only [resolveExtension] at h
      split at h
      · -- id already resolved
        rename_i h1
        injection h with h
        subst h
        exact ⟨⟨⟨[], by simp⟩, hg, rfl, fun x hx => .inl hx⟩, fun e _ => h1⟩
      · rename_i h1
        split at h
        · exact nomatch h
        · rename_i h2
          split at h
          · rename_i ext hfind
            split at h
            · exact nomatch h
            · rename_i resolved2 visited2 hdeq
              injection h with h
              subst h
              obtain ⟨hinv, hcov⟩ :=
                Qf ext.dependencies id (id :: visited) resolved
                  (resolved2, visited2) hdeq hg
              obtain ⟨⟨l2, hl2⟩, hg2, hv2, hfresh⟩ := hinv
              replace hl2 : resolved2 = resolved ++ l2 := hl2
              replace hv2 : visited2 = id :: visited := hv2
              replace hg2 : GoodOrder exts resolved2 := hg2
              replace hfresh : ∀ x ∈ resolved2,
                  x ∈ resolved ∨ x ∉ id :: visited := hfresh
              subst hv2
              have hid_not : id ∉ resolved2 := by
                intro hmem
                rcases hfresh id hmem with hc | hc
                · exact h1 hc
                · exact hc (List.mem_cons_self id visited)
              have herase : (id :: visited).erase id = visited :=
                List.erase_cons_head id visited
              refine ⟨⟨⟨l2 ++ [id], ?_⟩, ⟨?_, ?_⟩, ?_, ?_⟩, ?_⟩
              · show resolved2 ++ [id] = resolved ++ (l2 ++ [id])
                rw [hl2, List.append_assoc]
              · -- Nodup
                exact hg2.1.append (List.nodup_singleton id)
                  (by intro x hx hx2
                      rw [List.mem_singleton] at hx2
                      subst hx2
                      exact hid_not hx)
              · -- order condition
                intro i hi e hfind2 d hd
                have hlen : i < resolved2.length + 1 := by
                  simpa using hi
                rcases Nat.lt_or_ge i resolved2.length with hilt | hige
                · have hget : (resolved2 ++ [id]).get ⟨i, hi⟩
                      = resolved2.get ⟨i, hilt⟩ := List.get_append i hilt
                  rw [hget] at hfind2
                  have hmem := hg2.2 i hilt e hfind2 d hd
                  rw [take_append_left_of_le (by omega)]
                  exact hmem
                · have hieq : i = resolved2.length := by omega
                  subst hieq
                  have hget : (resolved2 ++ [id]).get ⟨resolved2.length, hi⟩
                      = id := by
                    rw [List.get_append_right] <;> simp
                  rw [hget, hfind] at hfind2
                  injection hfind2 with hfind2
                  subst hfind2
                  rw [List.take_left]
                  exact hcov d hd
              · show (id :: visited).erase id = visited
                exact herase
              · -- fresh
                intro x hx
                rcases List.mem_append.mp hx with hx2 | hx2
                · rcases hfresh x hx2 with hc | hc
                  · exact .inl hc
                  · exact .inr fun hv => hc (List.mem_cons_of_mem id hv)
                · rw [List.mem_singleton] at hx2
                  subst hx2
                  exact .inr h2
              · intro e _
                exact List.mem_append_right _ (List.mem_singleton.mpr rfl)
          · rename_i hfind
            injection h with h
            subst h
            refine ⟨⟨⟨[], by simp⟩, hg, ?_, fun x hx => .inl hx⟩, ?_⟩
            · show (id :: visited).erase id = visited
              exact List.erase_cons_head id visited
            · intro e he
              rw [hfind] at he
              exact nomatch he
    · -- resolveDeps at fuel + 1
      intro deps id visited resolved out h hg
      match deps with
      | [] =>
        injection h with h
        subst h
        exact ⟨⟨⟨[], by simp⟩, hg, rfl, fun x hx => .inl hx⟩,
          fun d hd => absurd hd (List.not_mem_nil d)⟩
      | dep :: rest =>
        simp only [resolveDeps] at h
        split at h
        · rename_i depExt hfind
          split at h
          · rename_i hsat
            split at h
            · exact nomatch h
            · rename_i resolved2 visited2 hres
              obtain ⟨hinv1, hid1⟩ :=
                Pf dep.unique_id resolved visited (resolved2, visited2) hres hg
              obtain ⟨⟨l2, hl2⟩, hg2, hv2, hfresh1⟩ := hinv1
              replace hl2 : resolved2 = resolved ++ l2 := hl2
              replace hv2 : visited2 = visited := hv2
              replace hg2 : GoodOrder exts resolved2 := hg2
              replace hfresh1 : ∀ x ∈ resolved2,
                  x ∈ resolved ∨ x ∉ visited := hfresh1
              rw [hv2] at h
              obtain ⟨hinv2, hcov2⟩ := Qf rest id visited resolved2 out h hg2
              obtain ⟨⟨l3, hl3⟩, hg3, hv3, hfresh2⟩ := hinv2
              refine ⟨⟨⟨l2 ++ l3, ?_⟩, hg3, hv3, ?_⟩, ?_⟩
              · rw [hl3, hl2, List.append_assoc]
              · intro x hx
                rcases hfresh2 x hx with hc | hc
                · rw [hl2] at hc
                  rcases List.mem_append.mp hc with hcc | hcc
                  · exact .inl hcc
                  · exact hfresh1 x (by rw [hl2]; exact List.mem_append_right _ hcc)
                · exact .inr hc
              · intro d hd
                rcases List.mem_cons.mp hd with rfl | hd2
                · have hmem := hid1 depExt hfind
                  rw [hl3]
                  exact List.mem_append_left _ hmem
                · exact hcov2 d hd2
          · exact nomatch h
        · exact nomatch h

theorem resolveGo_inv (exts : List ExtensionInfo) :
    ∀ rest resolved visited out,
      resolveGo exts rest resolved visited = .ok out →
      GoodOrder exts resolved →
      GoodOrder exts out ∧ (∃ l2, out = resolved ++ l2)
        ∧ (∀ e ∈ rest, ∀ e2, findExt exts e.unique_id = some e2 →
            e.unique_id ∈ out) := by
  intro rest
  induction rest with
  | nil =>
    intro resolved visited out h hg
    injection h with h
    subst h
    exact ⟨hg, ⟨[], by simp⟩, by intro e he; exact absurd he (List.not_mem_nil e)⟩
  | cons e rest ih =>
    intro resolved visited out h hg
    simp only [resolveGo] at h
    split at h
    · exact nomatch h
    · rename_i resolved2 visited2 hres
      obtain ⟨hinv, hid⟩ :=
        (resolve_inv exts (resolveFuel exts)).1 e.unique_id resolved visited
          (resolved2, visited2) hres hg
      obtain ⟨⟨l2, hl2⟩, hg2, _, _⟩ := hinv
      replace hl2 : resolved2 = resolved ++ l2 := hl2
      replace hg2 : GoodOrder exts resolved2 := hg2
      obtain ⟨hgout, ⟨l3, hl3⟩, hcov⟩ := ih resolved2 visited2 out h hg2
      refine ⟨hgout, ⟨l2 ++ l3, by rw [hl3, hl2, List.append_assoc]⟩, ?_⟩
      intro e' he' e2 hfind
      rcases List.mem_cons.mp he' with rfl | hmem
      · have hmem2 := hid e2 hfind
        rw [hl3]
        exact List.mem_append_left _ hmem2
      · exact hcov e' hmem e2 hfind

/-- C5: For every dependency graph whose resolve() succeeds, the returned
list orders dependencies before dependents — each resolved id appears
exactly once and after every id its (first-found) entry declares a
dependency on; in particular, for A with no dependencies, B depending on A,
and C depending on A and B, resolve() returns exactly [A, B, C]. -/
theorem resolve_orders_dependencies_first :
    (∀ exts order, DependencyResolver.resolve exts = .ok order →
      GoodOrder exts order)
    ∧ DependencyResolver.resolve exampleABC
        = .ok ["ext-a", "ext-b", "ext-c"] := by
  constructor
  · intro exts order h
    exact (resolveGo_inv exts exts [] [] order h (goodOrder_nil exts)).1
  · rfl

/-- C5 witness: the [A, B, C] order of the example is a `GoodOrder`. -/
theorem resolve_orders_dependencies_first_witness :
    GoodOrder exampleABC ["ext-a", "ext-b", "ext-c"] :=
  resolve_orders_dependencies_first.1 exampleABC ["ext-a", "ext-b", "ext-c"] rfl

theorem indexOf_lt_of_mem_take :
    ∀ (l : List String) (i : Nat) (b : String),
      b ∈ l.take i → l.indexOf b < i := by
  intro l
  induction l with
  | nil => intro i b h; simp at h
  | cons x l ih =>
    intro i b h
    match i with
    | 0 => simp at h
    | i + 1 =>
      rw [List.take_succ_cons] at h
      by_cases hbx : x = b
      · subst hbx
        rw [List.indexOf_cons_self]
        omega
      · rcases List.mem_cons.mp h with rfl | h2
        · exact absurd rfl hbx
        · rw [List.indexOf_cons_ne _ hbx]
          have := ih i b h2
          omega

theorem depEdge_index_lt (exts : List ExtensionInfo) (order : List String)
    (hres : DependencyResolver.resolve exts = .ok order) :
    ∀ a b, depEdge exts a b →
      a ∈ order ∧ b ∈ order ∧ order.indexOf b < order.indexOf a := by
  have hinv := resolveGo_inv exts exts [] [] order hres (goodOrder_nil exts)
  have hg : GoodOrder exts order := hinv.1
  have hmemall : ∀ a e, findExt exts a = some e → a ∈ order := by
    intro a e hfind
    have hfind2 : exts.find? (fun e2 => e2.unique_id == a) = some e := hfind
    have he_mem : e ∈ exts := List.mem_of_find?_eq_some hfind2
    have hbeq : (e.unique_id == a) = true :=
      @List.find?_some ExtensionInfo (fun e2 => e2.unique_id == a) e exts hfind2
    have he_id : e.unique_id = a := eq_of_beq hbeq
    have := hinv.2.2 e he_mem e (by rw [he_id]; exact hfind)
    rwa [he_id] at this
  rintro a b ⟨e, hfind, hb⟩
  have ha : a ∈ order := hmemall a e hfind
  have hia : order.indexOf a < order.length := List.indexOf_lt_length.mpr ha
  have hget : order.get ⟨order.indexOf a, hia⟩ = a := List.indexOf_get hia
  obtain ⟨d, hd, hdb⟩ := List.mem_map.mp hb
  have hbtake : b ∈ order.take (order.indexOf a) := by
    rw [← hdb]
    exact hg.2 (order.indexOf a) hia e (by rw [hget]; exact hfind) d hd
  exact ⟨ha, List.mem_of_mem_take hbtake,
    indexOf_lt_of_mem_take order (order.indexOf a) b hbtake⟩

/-- C8 counterexample: `exampleMaskedCycle` contains the cycle
ext-a → ext-b → ext-a, reachable from the top-level entries, yet resolve()
returns a MISSING-dependency error (raised for the earlier top-level entry
ext-x) rather than the circular-dependency error the claim requires. -/
theorem cycle_masked_by_missing_dep_error :
    Relation.TransGen (depEdge exampleMaskedCycle) "ext-a" "ext-a"
    ∧ DependencyResolver.resolve exampleMaskedCycle
        = .error (.missing "ext-x" "ext-m")
    ∧ ∀ id, ResolutionError.missing "ext-x" "ext-m"
        ≠ ResolutionError.circular id := by
  refine ⟨?_, rfl, ?_⟩
  · have e1 : depEdge exampleMaskedCycle "ext-a" "ext-b" := by
      refine ⟨⟨"ext-a", v100, [⟨"ext-b", v100⟩]⟩, rfl, ?_⟩
      simp
    have e2 : depEdge exampleMaskedCycle "ext-b" "ext-a" := by
      refine ⟨⟨"ext-b", v100, [⟨"ext-a", v100⟩]⟩, rfl, ?_⟩
      simp
    exact Relation.TransGen.tail (Relation.TransGen.single e1) e2
  · intro id
    simp

/-- C8 (amended): for every dependency graph containing a dependency cycle
(over first-found entries), resolve() never succeeds — though the error
surfaced may be a missing-dependency or version-mismatch error raised
earlier in the traversal rather than the circular-dependency error; for the
example A ↔ B specifically, resolve() returns the circular-dependency error
naming the re-entered node A; and a node reachable via two different acyclic
branches (the diamond) does not trigger this error, because stack membership
is removed when a node's subtree finishes. -/
theorem cycle_resolution_amended :
    (∀ exts order id, DependencyResolver.resolve exts = .ok order →
      ¬ Relation.TransGen (depEdge exts) id id)
    ∧ DependencyResolver.resolve exampleCycleAB = .error (.circular "ext-a")
    ∧ DependencyResolver.resolve exampleDiamond
        = .ok ["dep-a", "dep-b", "dep-c", "dep-d"] := by
  refine ⟨?_, rfl, rfl⟩
  intro exts order id hres hcyc
  have hstep := depEdge_index_lt exts order hres
  have hlt : ∀ a b, Relation.TransGen (depEdge exts) a b →
      order.indexOf b < order.indexOf a := by
    intro a b htg
    induction htg with
    | single h => exact (hstep _ _ h).2.2
    | tail h1 h2 ih => exact lt_trans (hstep _ _ h2).2.2 ih
  exact absurd (hlt id id hcyc) (lt_irrefl _)

/-- C8 witness: the acyclic example graph has no cycle through ext-a. -/
theorem cycle_resolution_amended_witness :
    ¬ Relation.TransGen (depEdge exampleABC) "ext-a" "ext-a" :=
  cycle_resolution_amended.1 exampleABC ["ext-a", "ext-b", "ext-c"] "ext-a" rfl
